import Mathlib

/-!
Shallow embedding of the Turing machine emulator (`src/main.py`).

The source consists of a direction enum (`TuringDirection`, an `IntEnum` with
values -1/0/1), an immutable instruction record (`TuringInstruction`) with a
regex-based string parser, a growable tape (`_TuringStrip`) represented as a
list of booleans plus an integer offset, and the machine itself
(`TuringMachine`) holding state, position, a transition dictionary, the strip
and a step counter.  Python's unbounded `int` is modelled as `Int`, `bool` as
`Bool`, `list` as `List`, and the transition `dict` as the lookup function it
denotes (built left-to-right with overwrite-on-insert, exactly as the `dict`
assignments in `__set_instructions_map`).  Methods that raise on failure are
modelled with `Option`; methods that mutate `self` return the updated record.
-/

/-- Direction of head movement (`TuringDirection` in the source, an `IntEnum`
with `L = -1`, `S = 0`, `R = 1`). -/
inductive TuringDirection where
  | L
  | S
  | R
  deriving DecidableEq

/-- The integer value of the `IntEnum` member: the signed offset added to the
head position on a transition (`self._position += instr.direction`). -/
def TuringDirection.toInt : TuringDirection → Int
  | .L => -1
  | .S => 0
  | .R => 1

/-- Embeds `TuringDirection.from_str`: a dictionary lookup on the single
direction character; a `KeyError` on any other character is modelled as
`none`. -/
def TuringDirection.from_str : Char → Option TuringDirection
  | 'L' => some .L
  | 'S' => some .S
  | 'R' => some .R
  | _ => none

/-- The frozen dataclass `TuringInstruction`. -/
structure TuringInstruction where
  start_state : Int
  start_value : Bool
  end_state : Int
  end_value : Bool
  direction : TuringDirection
  deriving DecidableEq

/-- Splits a character list into its longest digit prefix and the rest; this is
what a greedy `[0-9]+` consumes. -/
def digitRun : List Char → List Char × List Char
  | [] => ([], [])
  | c :: cs =>
    if c.isDigit then
      let p := digitRun cs
      (c :: p.1, p.2)
    else ([], c :: cs)

/-- Decimal value of a digit string, as Python's `int()` computes it. -/
def charsToNat (cs : List Char) : Nat :=
  cs.foldl (fun n c => 10 * n + (c.toNat - 48)) 0

/-- Embeds `TuringInstruction.from_str`, i.e. a full match of the regex
`q([0-9]+)([0-1])q([0-9]+)([0-1])([LSR])` with Python's greedy backtracking
semantics.  Because `[0-1] ⊆ [0-9]` and each digit group is followed by a
non-digit literal (`q`, or a direction letter at the very end), groups 1-2
necessarily consume the entire maximal digit run after the first `q` (group 2
being its last digit), and groups 3-4 the entire run after the second `q`; any
other split would force the following literal to match a digit.  A failed
match (`ValueError` in the source) is modelled as `none`. -/
def TuringInstruction.from_str (s : String) : Option TuringInstruction :=
  match s.data with
  | 'q' :: r0 =>
    let p1 := digitRun r0
    if p1.1.length < 2 then none else
    match p1.1.getLast?, p1.2 with
    | some v1, 'q' :: r2 =>
      if v1 = '0' ∨ v1 = '1' then
        let p2 := digitRun r2
        if p2.1.length < 2 then none else
        match p2.1.getLast?, p2.2 with
        | some v2, [d] =>
          if v2 = '0' ∨ v2 = '1' then
            match TuringDirection.from_str d with
            | some dir =>
              some ⟨(charsToNat p1.1.dropLast : Int), v1 == '1',
                    (charsToNat p2.1.dropLast : Int), v2 == '1', dir⟩
            | none => none
          else none
        | _, _ => none
      else none
    | _, _ => none
  | _ => none

/-- The tape (`_TuringStrip`): a materialized window `data` plus an integer
`offset` mapping a logical coordinate to a window index. -/
structure TuringStrip where
  data : List Bool
  offset : Int
  deriving DecidableEq

/-- Embeds `_TuringStrip.get_cursor`. -/
def TuringStrip.get_cursor (s : TuringStrip) (pos : Int) : Int :=
  pos + s.offset

/-- Embeds `_TuringStrip.__getitem__`: add the offset, return `False` when the
index is outside `range(0, len(data))`, the stored element otherwise.  The
source performs no mutation here, so the embedding is a pure function. -/
def TuringStrip.get (s : TuringStrip) (item : Int) : Bool :=
  let i := item + s.offset
  if 0 ≤ i ∧ i < (s.data.length : Int) then s.data.getD i.toNat false else false

/-- Embeds `_TuringStrip.__setitem__`: add the offset; when the index is
negative, grow leftward (`offset -= key`, prepend `abs(key)` blanks, index
becomes 0); when the index is at or beyond the window length, append enough
blanks; then store the value. -/
def TuringStrip.set (s : TuringStrip) (key : Int) (value : Bool) : TuringStrip :=
  let k0 := key + s.offset
  let off1 := if k0 < 0 then s.offset - k0 else s.offset
  let d1 := if k0 < 0 then List.replicate (-k0).toNat false ++ s.data else s.data
  let k1 := if k0 < 0 then (0 : Int) else k0
  let d2 := if (d1.length : Int) ≤ k1 then
      d1 ++ List.replicate (k1 - d1.length + 1).toNat false
    else d1
  { data := d2.set k1.toNat value, offset := off1 }

/-- Embeds `_TuringStrip.__str__`: the window rendered as `0`/`1` characters. -/
def TuringStrip.render (s : TuringStrip) : String :=
  String.mk (s.data.map fun b => if b then '1' else '0')

/-- Embeds `TuringMachine.__set_instructions_map`: the transition `dict` is
built by iterating over the instruction list and assigning
`map[(start_state, start_value)] = instr`, so a later instruction with the
same key overwrites an earlier one.  The `dict` is modelled as the lookup
function it denotes. -/
def buildInstructionsMap (instructions : List TuringInstruction) :
    Int × Bool → Option TuringInstruction :=
  instructions.foldl
    (fun m instr k =>
      if k = (instr.start_state, instr.start_value) then some instr else m k)
    (fun _ => none)

/-- The machine (`TuringMachine`): control state, head position, transition
table, tape, and step counter. -/
structure TuringMachine where
  state : Int
  position : Int
  instructions_map : Int × Bool → Option TuringInstruction
  strip : TuringStrip
  step_count : Nat

/-- Embeds `TuringMachine.__init__`. -/
def TuringMachine.init (instructions : List TuringInstruction) (word : List Bool)
    (state : Int) (position : Int) : TuringMachine :=
  { state := state
    position := position
    instructions_map := buildInstructionsMap instructions
    strip := { data := word, offset := 0 }
    step_count := 0 }

/-- Embeds the `val` property getter: read the strip at the current position. -/
def TuringMachine.val (m : TuringMachine) : Bool :=
  m.strip.get m.position

/-- Embeds the `val` property setter: write the strip at the current position. -/
def TuringMachine.setVal (m : TuringMachine) (value : Bool) : TuringMachine :=
  { m with strip := m.strip.set m.position value }

/-- Embeds `TuringMachine.step`: return `True` (halted) on state 0 or a missing
table entry, otherwise increment the step counter, write the instruction's
end value at the current position, switch to the end state, move the head by
the direction offset and return `False`.  The membership test and the
subsequent `dict` lookup of the source are one `match` here. -/
def TuringMachine.step (m : TuringMachine) : Bool × TuringMachine :=
  if m.state = 0 then (true, m)
  else
    match m.instructions_map (m.state, m.val) with
    | none => (true, m)
    | some instr =>
      let m1 : TuringMachine := { m with step_count := m.step_count + 1 }
      let m2 := m1.setVal instr.end_value
      let m3 : TuringMachine := { m2 with state := instr.end_state }
      let m4 : TuringMachine := { m3 with position := m3.position + instr.direction.toInt }
      (false, m4)

/-- Modelled from the spec: `is_halted()` appears in the spec's Machine
contract but no such method exists in `src/main.py`; per the spec it is "true
iff `state == 0` or no table entry exists for `(state, current_value())`". -/
def TuringMachine.is_halted (m : TuringMachine) : Bool :=
  decide (m.state = 0) || (m.instructions_map (m.state, m.val)).isNone

/-- Repeated invocation of `step`, as the driver loop performs: `m.run n` is
the machine after `n` calls to `step()`. -/
def TuringMachine.run : TuringMachine → Nat → TuringMachine
  | m, 0 => m
  | m, n + 1 => (TuringMachine.run m n).step.2

/-- A finite sequence of writes applied to a strip in order. -/
def applyWrites (s : TuringStrip) (ws : List (Int × Bool)) : TuringStrip :=
  ws.foldl (fun t w => t.set w.1 w.2) s

/-- The value of the last write at coordinate `p` in a write sequence, if any. -/
def lastWriteValue (ws : List (Int × Bool)) (p : Int) : Option Bool :=
  ws.foldl (fun acc w => if w.1 = p then some w.2 else acc) none

/-- Embeds the shell's tape-text conversion `[s == "1" for s in word_str]`. -/
def wordFromString (s : String) : List Bool :=
  s.data.map fun c => c == '1'

/-- The instruction list the spec's end-to-end scenario supplies, parsed exactly
as the shell does (collecting the successfully parsed instructions). -/
def scenarioInstructions : List TuringInstruction :=
  ([TuringInstruction.from_str "q100q11S", TuringInstruction.from_str "q110q20R"]).filterMap id

/-- The machine of the spec's end-to-end scenario: its instruction strings,
initial tape `"01"`, initial state 1, initial position 0. -/
def scenarioMachine : TuringMachine :=
  TuringMachine.init scenarioInstructions (wordFromString "01") 1 0

/-- The scenario's instruction list with the 7-character instruction strings
that actually encode `q1,0→q1,1,S` and `q1,1→q2,1,R`. -/
def scenarioFixedInstructions : List TuringInstruction :=
  ([TuringInstruction.from_str "q10q11S", TuringInstruction.from_str "q11q21R"]).filterMap id

/-- The end-to-end scenario machine rebuilt from the corrected strings. -/
def scenarioFixedMachine : TuringMachine :=
  TuringMachine.init scenarioFixedInstructions (wordFromString "01") 1 0

/-- The machine of the negative-direction growth scenario: instruction
`q10q10L`, empty initial tape, state 1, position 0. -/
def leftMachine : TuringMachine :=
  TuringMachine.init ([TuringInstruction.from_str "q10q10L"].filterMap id)
    (wordFromString "") 1 0

/-! ## Basic lemmas about the strip -/

/-- Normal form for `TuringStrip.get`: the upper range check coincides with
`getElem?` returning `none`. -/
theorem TuringStrip.get_eq (s : TuringStrip) (p : Int) :
    s.get p =
      if 0 ≤ p + s.offset then (s.data[(p + s.offset).toNat]?).getD false
      else false := by
  unfold TuringStrip.get
  by_cases h0 : 0 ≤ p + s.offset
  · by_cases h1 : p + s.offset < (s.data.length : Int)
    · have hlt : (p + s.offset).toNat < s.data.length := by omega
      simp [h0, h1, List.getD_eq_getElem?_getD]
    · have hge : s.data.length ≤ (p + s.offset).toNat := by omega
      simp [h0, h1, List.getElem?_eq_none hge]
  · simp [h0]

/-- Branch-free description of `TuringStrip.set`. -/
theorem TuringStrip.set_eq (s : TuringStrip) (key : Int) (value : Bool) :
    s.set key value =
      if key + s.offset < 0 then
        { data := (List.replicate (-(key + s.offset)).toNat false ++ s.data).set 0 value,
          offset := s.offset - (key + s.offset) }
      else if (s.data.length : Int) ≤ key + s.offset then
        { data := (s.data ++
            List.replicate (key + s.offset - s.data.length + 1).toNat false).set
            (key + s.offset).toNat value,
          offset := s.offset }
      else
        { data := s.data.set (key + s.offset).toNat value, offset := s.offset } := by
  unfold TuringStrip.set
  dsimp only
  split_ifs <;> try rfl
  all_goals (exfalso; simp only [List.length_append, List.length_replicate] at *; omega)

/-- Writing materializes the written coordinate: its index is valid afterwards. -/
theorem TuringStrip.set_materializes (s : TuringStrip) (q : Int) (v : Bool) :
    0 ≤ q + (s.set q v).offset ∧
      q + (s.set q v).offset < (((s.set q v).data.length) : Int) := by
  rw [TuringStrip.set_eq]
  split_ifs with ha hb <;>
    dsimp <;>
    simp only [List.length_set, List.length_append, List.length_replicate] <;>
    omega

/-- The offset after a write: it grows by the shortfall on leftward growth and
is untouched otherwise. -/
theorem TuringStrip.offset_set (s : TuringStrip) (q : Int) (v : Bool) :
    (s.set q v).offset =
      s.offset + (if q + s.offset < 0 then -(q + s.offset) else 0) := by
  rw [TuringStrip.set_eq]
  split_ifs with ha hb <;> dsimp <;> omega

/-- A write never decreases the offset. -/
theorem TuringStrip.offset_le_set (s : TuringStrip) (q : Int) (v : Bool) :
    s.offset ≤ (s.set q v).offset := by
  rw [TuringStrip.offset_set]
  split_ifs <;> omega

/-- A materialized cell stays materialized across any further write. -/
theorem TuringStrip.materialized_set (s : TuringStrip) (q : Int) (v : Bool) (p : Int)
    (h0 : 0 ≤ p + s.offset) (h1 : p + s.offset < (s.data.length : Int)) :
    0 ≤ p + (s.set q v).offset ∧
      p + (s.set q v).offset < (((s.set q v).data.length) : Int) := by
  rw [TuringStrip.set_eq]
  split_ifs with ha hb <;>
    dsimp <;>
    simp only [List.length_set, List.length_append, List.length_replicate] <;>
    omega

/-- Reading back the coordinate just written yields the written value. -/
theorem TuringStrip.get_set_self (s : TuringStrip) (q : Int) (v : Bool) :
    (s.set q v).get q = v := by
  rw [TuringStrip.set_eq]
  by_cases h0 : q + s.offset < 0
  · rw [if_pos h0, TuringStrip.get_eq]
    dsimp
    have hidx : q + (s.offset - (q + s.offset)) = 0 := by ring
    rw [hidx]
    have hlt : (0 : Nat) < ((List.replicate (-(q + s.offset)).toNat false ++ s.data)).length := by
      simp only [List.length_append, List.length_replicate]
      omega
    rw [if_pos le_rfl]
    rw [show ((0 : Int)).toNat = 0 from rfl]
    rw [List.getElem?_set_self hlt]
    rfl
  · by_cases h1 : (s.data.length : Int) ≤ q + s.offset
    · rw [if_neg h0, if_pos h1, TuringStrip.get_eq]
      dsimp
      rw [if_pos (by omega)]
      have hlt : (q + s.offset).toNat <
          (s.data ++ List.replicate (q + s.offset - s.data.length + 1).toNat false).length := by
        simp only [List.length_append, List.length_replicate]
        omega
      rw [List.getElem?_set_self hlt]
      rfl
    · rw [if_neg h0, if_neg h1, TuringStrip.get_eq]
      dsimp
      rw [if_pos (by omega)]
      rw [List.getElem?_set_self (by omega)]
      rfl

/-- Writing one coordinate does not change the value read at any other. -/
theorem TuringStrip.get_set_of_ne (s : TuringStrip) (q : Int) (v : Bool) (p : Int)
    (hne : p ≠ q) : (s.set q v).get p = s.get p := by
  rw [TuringStrip.set_eq]
  by_cases h0 : q + s.offset < 0
  · rw [if_pos h0]
    simp only [TuringStrip.get_eq]
    try dsimp
    by_cases hneg : p + (s.offset - (q + s.offset)) < 0
    · rw [if_neg (by omega), if_neg (by omega)]
    · have hipos : 0 < p + (s.offset - (q + s.offset)) := by omega
      rw [if_pos (by omega)]
      rw [List.getElem?_set_ne (show (0 : Nat) ≠ (p + (s.offset - (q + s.offset))).toNat by omega)]
      by_cases hold : p + s.offset < 0
      · rw [List.getElem?_append_left (by simp only [List.length_replicate]; omega)]
        rw [List.getElem?_replicate, if_pos (by omega), if_neg (by omega)]
        rfl
      · rw [List.getElem?_append_right (by simp only [List.length_replicate]; omega)]
        rw [show (p + (s.offset - (q + s.offset))).toNat -
              (List.replicate (-(q + s.offset)).toNat (false : Bool)).length =
              (p + s.offset).toNat by simp only [List.length_replicate]; omega]
        rw [if_pos (by omega)]
  · by_cases h1 : (s.data.length : Int) ≤ q + s.offset
    · rw [if_neg h0, if_pos h1]
      simp only [TuringStrip.get_eq]
      try dsimp
      by_cases hold : 0 ≤ p + s.offset
      · simp only [if_pos hold]
        rw [List.getElem?_set_ne (show (q + s.offset).toNat ≠ (p + s.offset).toNat by omega)]
        by_cases hin : p + s.offset < (s.data.length : Int)
        · rw [List.getElem?_append_left (by omega)]
        · rw [List.getElem?_append_right (by omega)]
          rw [List.getElem?_replicate]
          rw [List.getElem?_eq_none (by omega)]
          split_ifs <;> rfl
      · simp only [if_neg hold]
    · rw [if_neg h0, if_neg h1]
      simp only [TuringStrip.get_eq]
      try dsimp
      by_cases hold : 0 ≤ p + s.offset
      · simp only [if_pos hold]
        rw [List.getElem?_set_ne (show (q + s.offset).toNat ≠ (p + s.offset).toNat by omega)]
      · simp only [if_neg hold]

/-- Combined read-after-write law for the strip. -/
theorem TuringStrip.get_set (s : TuringStrip) (q : Int) (v : Bool) (p : Int) :
    (s.set q v).get p = if p = q then v else s.get p := by
  by_cases h : p = q
  · subst h
    rw [if_pos rfl, TuringStrip.get_set_self]
  · rw [if_neg h, TuringStrip.get_set_of_ne s q v p h]

/-- Folding the last-writer accumulator from an arbitrary start. -/
theorem lastWriteValue_acc (p : Int) (t : List (Int × Bool)) (acc : Option Bool) :
    t.foldl (fun a w => if w.1 = p then some w.2 else a) acc =
      match lastWriteValue t p with
      | some v => some v
      | none => acc := by
  induction t generalizing acc with
  | nil => rfl
  | cons w t ih =>
    show t.foldl _ (if w.1 = p then some w.2 else acc) = _
    rw [ih]
    rw [show lastWriteValue (w :: t) p =
        t.foldl (fun a x => if x.1 = p then some x.2 else a)
          (if w.1 = p then some w.2 else none) from rfl]
    rw [ih]
    cases lastWriteValue t p with
    | some v => rfl
    | none =>
      by_cases h : w.1 = p
      · rw [if_pos h, if_pos h]
      · rw [if_neg h, if_neg h]

/-- Read-back after a whole sequence of writes: the last write at the queried
coordinate wins, and a coordinate no write touched keeps its original value. -/
theorem applyWrites_get (ws : List (Int × Bool)) (s : TuringStrip) (p : Int) :
    (applyWrites s ws).get p =
      match lastWriteValue ws p with
      | some v => v
      | none => s.get p := by
  induction ws generalizing s with
  | nil => rfl
  | cons w t ih =>
    rw [show applyWrites s (w :: t) = applyWrites (s.set w.1 w.2) t from rfl]
    rw [ih]
    rw [show lastWriteValue (w :: t) p =
        t.foldl (fun a x => if x.1 = p then some x.2 else a)
          (if w.1 = p then some w.2 else none) from rfl]
    rw [lastWriteValue_acc]
    cases lastWriteValue t p with
    | some v => rfl
    | none =>
      rw [TuringStrip.get_set]
      by_cases h : w.1 = p
      · rw [if_pos h, if_pos (h.symm)]
      · rw [if_neg h, if_neg (fun hh => h hh.symm)]

/-- The offset is non-decreasing along any sequence of writes. -/
theorem offset_le_applyWrites (ws : List (Int × Bool)) (s : TuringStrip) :
    s.offset ≤ (applyWrites s ws).offset := by
  induction ws generalizing s with
  | nil => exact le_rfl
  | cons w t ih =>
    exact le_trans (TuringStrip.offset_le_set s w.1 w.2)
      (ih (s.set w.1 w.2))

/-! ## Lemmas about the transition table -/

/-- Folding the `dict`-build from an arbitrary accumulator. -/
theorem buildInstructionsMap_acc (t : List TuringInstruction)
    (acc : Int × Bool → Option TuringInstruction) (k : Int × Bool) :
    (t.foldl
      (fun m instr k' =>
        if k' = (instr.start_state, instr.start_value) then some instr else m k')
      acc) k =
      match t.reverse.find? (fun i => decide ((i.start_state, i.start_value) = k)) with
      | some i => some i
      | none => acc k := by
  induction t generalizing acc with
  | nil => rfl
  | cons a t ih =>
    show (t.foldl _
        (fun k' => if k' = (a.start_state, a.start_value) then some a else acc k')) k = _
    rw [ih]
    rw [show (a :: t).reverse = t.reverse ++ [a] from by simp]
    rw [List.find?_append]
    cases t.reverse.find? (fun i => decide ((i.start_state, i.start_value) = k)) with
    | some i => rfl
    | none =>
      simp only [Option.none_or]
      by_cases h : (a.start_state, a.start_value) = k
      · have hf : List.find? (fun i => decide ((i.start_state, i.start_value) = k)) [a] =
            some a := by simp [List.find?, h]
        rw [hf, if_pos h.symm]
      · have hf : List.find? (fun i => decide ((i.start_state, i.start_value) = k)) [a] =
            none := by simp [List.find?, h]
        rw [hf, if_neg (fun hh => h hh.symm)]

/-- The table lookup resolves each key to the last instruction with that key. -/
theorem buildInstructionsMap_eq_lastMatch (l : List TuringInstruction) (k : Int × Bool) :
    buildInstructionsMap l k =
      l.reverse.find? (fun i => decide ((i.start_state, i.start_value) = k)) := by
  unfold buildInstructionsMap
  rw [buildInstructionsMap_acc]
  cases l.reverse.find? (fun i => decide ((i.start_state, i.start_value) = k)) with
  | some i => rfl
  | none => rfl

/-! ## Lemmas about the machine's step -/

/-- The halting flag of `step` is set exactly on state 0 or a missing entry. -/
theorem TuringMachine.step_flag_iff (m : TuringMachine) :
    m.step.1 = true ↔ (m.state = 0 ∨ m.instructions_map (m.state, m.val) = none) := by
  unfold TuringMachine.step
  by_cases h : m.state = 0
  · simp [h]
  · cases hl : m.instructions_map (m.state, m.val) with
    | none => simp [h, hl]
    | some instr => simp [h, hl]

/-- A halting call to `step` returns the machine unchanged. -/
theorem TuringMachine.step_snd_eq_of_flag (m : TuringMachine) (h : m.step.1 = true) :
    m.step.2 = m := by
  rcases (TuringMachine.step_flag_iff m).mp h with h0 | hl
  · unfold TuringMachine.step
    simp [h0]
  · unfold TuringMachine.step
    by_cases h0 : m.state = 0
    · simp [h0]
    · simp [h0, hl]

/-- Explicit result of a non-halting `step`. -/
theorem TuringMachine.step_apply (m : TuringMachine) (instr : TuringInstruction)
    (h0 : ¬ m.state = 0) (hl : m.instructions_map (m.state, m.val) = some instr) :
    m.step = (false,
      { state := instr.end_state
        position := m.position + instr.direction.toInt
        instructions_map := m.instructions_map
        strip := m.strip.set m.position instr.end_value
        step_count := m.step_count + 1 }) := by
  unfold TuringMachine.step
  rw [if_neg h0, hl]
  rfl

/-- Once a `step` call reports halted, every later configuration is the same
machine and every later `step` call reports halted again. -/
theorem TuringMachine.run_halted (m : TuringMachine) (h : m.step.1 = true) :
    ∀ n : Nat, m.run n = m ∧ (m.run n).step.1 = true := by
  intro n
  induction n with
  | zero => exact ⟨rfl, h⟩
  | succ n ih =>
    have h2 : m.run (n + 1) = m := by
      show ((m.run n).step).2 = m
      rw [ih.1]
      exact TuringMachine.step_snd_eq_of_flag m h
    refine ⟨h2, ?_⟩
    rw [h2]
    exact h

/-- One step of the left-mover configuration: with `q10q10L` loaded and the
head reading blank, the machine writes blank, stays in state 1 and moves
left. -/
theorem leftMachine_step (pos : Int) (st : TuringStrip) (cnt : Nat)
    (hval : st.get pos = false) :
    (TuringMachine.mk 1 pos leftMachine.instructions_map st cnt).step =
      (false, TuringMachine.mk 1 (pos - 1) leftMachine.instructions_map
        (st.set pos false) (cnt + 1)) := by
  have hl : (TuringMachine.mk 1 pos leftMachine.instructions_map st cnt).instructions_map
      ((TuringMachine.mk 1 pos leftMachine.instructions_map st cnt).state,
        (TuringMachine.mk 1 pos leftMachine.instructions_map st cnt).val) =
      some ⟨1, false, 1, false, TuringDirection.L⟩ := by
    show leftMachine.instructions_map (1, st.get pos) = _
    rw [hval]
    rfl
  rw [TuringMachine.step_apply (TuringMachine.mk 1 pos leftMachine.instructions_map st cnt)
    ⟨1, false, 1, false, TuringDirection.L⟩ ((by norm_num : ¬ (1 : Int) = 0)) hl]
  simp only [Prod.mk.injEq, TuringMachine.mk.injEq, TuringDirection.toInt, true_and, and_true]
  omega

/-- Closed form of the left-mover run: after `n + 1` steps the window is
`n + 1` blanks, the offset is `n`, the head sits at `-(n + 1)`. -/
theorem leftMachine_run (n : Nat) :
    leftMachine.run (n + 1) =
      TuringMachine.mk 1 (-((n : Int) + 1)) leftMachine.instructions_map
        (TuringStrip.mk (List.replicate (n + 1) false) (n : Int)) (n + 1) := by
  induction n with
  | zero => rfl
  | succ n ih =>
    show ((leftMachine.run (n + 1)).step).2 = _
    rw [ih]
    rw [leftMachine_step _ _ _ (by
      unfold TuringStrip.get
      dsimp only
      split_ifs with hc
      · exfalso
        simp only [List.length_replicate] at hc
        omega
      · rfl)]
    have hs : (TuringStrip.mk (List.replicate (n + 1) false) (n : Int)).set
        (-((n : Int) + 1)) false =
        TuringStrip.mk (List.replicate (n + 1 + 1) false) ((n : Int) + 1) := by
      rw [TuringStrip.set_eq]
      dsimp only
      rw [if_pos (by omega)]
      simp only [TuringStrip.mk.injEq]
      constructor
      · rw [show (-(-((n : Int) + 1) + (n : Int))).toNat = 1 by omega]
        rw [show List.replicate (n + 1 + 1) (false : Bool) =
            List.replicate 1 false ++ List.replicate (n + 1) false from by
          rw [← List.replicate_add, show 1 + (n + 1) = n + 1 + 1 from by omega]]
        rfl
      · omega
    dsimp only
    rw [hs]
    simp only [TuringMachine.mk.injEq, true_and, and_true]
    refine ⟨by push_cast; ring, ?_⟩
    rw [show ((n + 1 : Nat) : Int) = (n : Int) + 1 from by push_cast; ring]

/-! ## The claims -/

/-- C1: when the state is nonzero and the table has an entry for the state and
the value under the head, `step` returns false, increments the step counter by
exactly 1, writes the instruction's end value at the pre-step position, moves
to the instruction's end state, and shifts the position by the direction's
offset (-1 for Left, 0 for Stay, +1 for Right). -/
theorem claim_c1_step_applies (m : TuringMachine) (instr : TuringInstruction)
    (h0 : ¬ m.state = 0)
    (hl : m.instructions_map (m.state, m.val) = some instr) :
    m.step.1 = false ∧
    m.step.2.step_count = m.step_count + 1 ∧
    m.step.2.strip.get m.position = instr.end_value ∧
    m.step.2.state = instr.end_state ∧
    m.step.2.position = m.position + instr.direction.toInt ∧
    TuringDirection.L.toInt = -1 ∧
    TuringDirection.S.toInt = 0 ∧
    TuringDirection.R.toInt = 1 := by
  rw [TuringMachine.step_apply m instr h0 hl]
  exact ⟨rfl, rfl,
    TuringStrip.get_set_self m.strip m.position instr.end_value,
    rfl, rfl, rfl, rfl, rfl⟩

/-- C1 witness: a concrete machine with an applicable instruction steps
without halting. -/
theorem claim_c1_witness :
    (TuringMachine.init [⟨1, false, 2, true, TuringDirection.R⟩] [] 1 0).step.1 = false :=
  (claim_c1_step_applies (TuringMachine.init [⟨1, false, 2, true, TuringDirection.R⟩] [] 1 0)
    ⟨1, false, 2, true, TuringDirection.R⟩ (by decide) (by decide)).1

/-- C2: `step` returns true exactly on state 0 or a missing table entry, in
which case the machine (state, position, tape, step counter) is unchanged, and
`is_halted` (modelled from the spec, absent from the source) reports true
under the same condition. -/
theorem claim_c2_halt_iff (m : TuringMachine) :
    (m.step.1 = true ↔ (m.state = 0 ∨ m.instructions_map (m.state, m.val) = none)) ∧
    (m.step.1 = true → m.step.2 = m) ∧
    (m.is_halted = true ↔ m.step.1 = true) := by
  refine ⟨TuringMachine.step_flag_iff m, TuringMachine.step_snd_eq_of_flag m, ?_⟩
  rw [TuringMachine.step_flag_iff m]
  unfold TuringMachine.is_halted
  simp [Option.isNone_iff_eq_none]

/-- C2 witness: a machine in the reserved state 0 is left unchanged by `step`. -/
theorem claim_c2_witness :
    (TuringMachine.init [] [] 0 0).step.2 = TuringMachine.init [] [] 0 0 :=
  (claim_c2_halt_iff (TuringMachine.init [] [] 0 0)).2.1 (by decide)

/-- C3 counterexample: on the tape created from initial contents `[true]`,
with no writes at all, coordinate 0 was never written yet reads true, not
false as the claim states for every never-written coordinate of every tape. -/
theorem claim_c3_counterexample :
    ¬ ((applyWrites (TuringStrip.mk [true] 0) []).get 0 = false) := by decide

/-- C3 amended: after any finite sequence of writes, a read at a coordinate
previously written returns the last value written there, and a read at a
never-written coordinate returns the tape's pre-existing value there (false
when the coordinate lies outside the initially materialized window).  Reads
are embedded as a pure function because `__getitem__` performs no mutation. -/
theorem claim_c3_amended (s : TuringStrip) (ws : List (Int × Bool)) (p : Int) :
    (∀ v, lastWriteValue ws p = some v → (applyWrites s ws).get p = v) ∧
    (lastWriteValue ws p = none → (applyWrites s ws).get p = s.get p) := by
  constructor
  · intro v hv
    rw [applyWrites_get, hv]
  · intro hv
    rw [applyWrites_get, hv]

/-- C3 witness: a concrete write then read at coordinate 5. -/
theorem claim_c3_witness :
    (applyWrites (TuringStrip.mk [] 0) [((5 : Int), true)]).get 5 = true :=
  (claim_c3_amended (TuringStrip.mk [] 0) [((5 : Int), true)] 5).1 true (by decide)

/-- C4: the offset never decreases across any sequence of writes; a single
write increases it by exactly the leftward shortfall (zero on rightward growth
and in-window writes); and the value stored at any other coordinate is
unaffected by a write, so materialized cells keep their logical coordinate.
Reads are pure in the embedding (`__getitem__` performs no mutation), so they
trivially leave the offset unchanged. -/
theorem claim_c4_offset_monotone :
    (∀ (s : TuringStrip) (ws : List (Int × Bool)), s.offset ≤ (applyWrites s ws).offset) ∧
    (∀ (s : TuringStrip) (q : Int) (v : Bool),
      (s.set q v).offset = s.offset + (if q + s.offset < 0 then -(q + s.offset) else 0)) ∧
    (∀ (s : TuringStrip) (q : Int) (v : Bool) (p : Int), p ≠ q →
      (s.set q v).get p = s.get p) :=
  ⟨fun s ws => offset_le_applyWrites ws s,
   TuringStrip.offset_set,
   fun s q v p h => TuringStrip.get_set_of_ne s q v p h⟩

/-- C4 witness: a write far to the left leaves the cell at coordinate 0
readable with its old value. -/
theorem claim_c4_witness :
    ((TuringStrip.mk [true] 0).set (-3) true).get 0 = (TuringStrip.mk [true] 0).get 0 :=
  claim_c4_offset_monotone.2.2 (TuringStrip.mk [true] 0) (-3) true 0 (by decide)

/-- C5 counterexample: the spec's instruction string `"q100q11S"` parses (with
the regex's greedy backtracking) to start state 10, not 1, so the scenario
machine finds no entry for state 1 at its very first step: `step` returns true
and the step counter stays 0, contradicting the claimed first step with
step_count 1. -/
theorem claim_c5_counterexample :
    TuringInstruction.from_str "q100q11S" = some ⟨10, false, 1, true, TuringDirection.S⟩ ∧
    TuringInstruction.from_str "q110q20R" = some ⟨11, false, 2, false, TuringDirection.R⟩ ∧
    scenarioMachine.step.1 = true ∧
    ¬ (scenarioMachine.step.2.step_count = 1) := by decide

/-- C5 amended: with the 7-character instruction strings `"q10q11S"` and
`"q11q21R"` (which encode the transitions the claim names, q1,0→q1,1,S and
q1,1→q2,1,R), the machine on tape "01", state 1, position 0 behaves exactly
as described: step 1 reads 0 and leaves tape "11", state 1, position 0,
step_count 1; step 2 reads 1 and leaves tape "11", state 2, position 1,
step_count 2; step 3 reads 1 at position 1, finds no entry for state 2 and
halts with step_count still 2. -/
theorem claim_c5_amended :
    TuringInstruction.from_str "q10q11S" = some ⟨1, false, 1, true, TuringDirection.S⟩ ∧
    TuringInstruction.from_str "q11q21R" = some ⟨1, true, 2, true, TuringDirection.R⟩ ∧
    scenarioFixedMachine.val = false ∧
    scenarioFixedMachine.step.1 = false ∧
    (scenarioFixedMachine.run 1).strip.render = "11" ∧
    (scenarioFixedMachine.run 1).state = 1 ∧
    (scenarioFixedMachine.run 1).position = 0 ∧
    (scenarioFixedMachine.run 1).step_count = 1 ∧
    (scenarioFixedMachine.run 1).val = true ∧
    (scenarioFixedMachine.run 1).step.1 = false ∧
    (scenarioFixedMachine.run 2).strip.render = "11" ∧
    (scenarioFixedMachine.run 2).state = 2 ∧
    (scenarioFixedMachine.run 2).position = 1 ∧
    (scenarioFixedMachine.run 2).step_count = 2 ∧
    (scenarioFixedMachine.run 2).val = true ∧
    (scenarioFixedMachine.run 2).step.1 = true ∧
    (scenarioFixedMachine.run 3).step_count = 2 := by decide

/-- C6 counterexample: the very first step of the left-mover on the empty tape
materializes cell 0 by growing the window rightward, so the offset stays 0
instead of increasing by one as the claim asserts for every step. -/
theorem claim_c6_counterexample :
    (leftMachine.run 1).strip.offset = 0 ∧
    ¬ ((leftMachine.run 1).strip.offset = (leftMachine.run 0).strip.offset + 1) := by
  decide

/-- C6 amended: every step of the left-mover succeeds and writes at a strictly
decreasing position (step n + 1 moves the head from -n to -(n+1)); the window
grows by exactly one blank per step (after n + 1 steps it holds exactly n + 1
blanks, so its length is n + 1); and the offset after n + 1 steps is n — so
the first step grows the window rightward with the offset unchanged at 0, and
every later step grows it leftward, increasing the offset by exactly one. -/
theorem claim_c6_amended (n : Nat) :
    (leftMachine.run n).step.1 = false ∧
    (leftMachine.run (n + 1)).position = (leftMachine.run n).position - 1 ∧
    (leftMachine.run (n + 1)).strip.data = List.replicate (n + 1) false ∧
    (leftMachine.run (n + 1)).strip.data.length = n + 1 ∧
    (leftMachine.run (n + 1)).strip.offset = (n : Int) ∧
    (leftMachine.run (n + 1)).step_count = n + 1 := by
  cases n with
  | zero => exact ⟨by decide, by decide, by decide, by decide, by decide, by decide⟩
  | succ k =>
    refine ⟨?_, ?_, ?_, ?_, ?_, ?_⟩
    · rw [leftMachine_run k]
      rw [leftMachine_step (-((k : Int) + 1))
        (TuringStrip.mk (List.replicate (k + 1) false) (k : Int)) (k + 1) (by
          unfold TuringStrip.get
          dsimp only
          split_ifs with hc
          · exfalso
            simp only [List.length_replicate] at hc
            omega
          · rfl)]
    · rw [leftMachine_run k, leftMachine_run (k + 1)]
      dsimp only
      push_cast
      ring
    · rw [leftMachine_run (k + 1)]
    · rw [leftMachine_run (k + 1)]
      dsimp only
      simp
    · rw [leftMachine_run (k + 1)]
    · rw [leftMachine_run (k + 1)]

/-- C7: the transition table maps each key to the last instruction in the list
with that key (later duplicates silently replace earlier ones, and at most one
instruction resolves per key since the table is a function); in particular the
two-instruction example resolves key (1, false) to the second instruction. -/
theorem claim_c7_last_writer_wins :
    (∀ (l : List TuringInstruction) (k : Int × Bool),
      buildInstructionsMap l k =
        l.reverse.find? (fun i => decide ((i.start_state, i.start_value) = k))) ∧
    buildInstructionsMap
      [⟨1, false, 1, true, TuringDirection.R⟩, ⟨1, false, 2, false, TuringDirection.S⟩]
      (1, false) = some ⟨1, false, 2, false, TuringDirection.S⟩ :=
  ⟨buildInstructionsMap_eq_lastMatch, by decide⟩

/-- C8: halting is permanent: once `step` reports true, after any number of
further `step` calls the machine is unchanged and `step` still reports true. -/
theorem claim_c8_halt_permanent (m : TuringMachine) (h : m.step.1 = true) (n : Nat) :
    (m.run n).step.1 = true ∧ m.run n = m :=
  ⟨(TuringMachine.run_halted m h n).2, (TuringMachine.run_halted m h n).1⟩

/-- C8 witness: a machine halted in state 0 still reports halted after three
further calls. -/
theorem claim_c8_witness :
    ((TuringMachine.init [] [] 0 0).run 3).step.1 = true :=
  (claim_c8_halt_permanent (TuringMachine.init [] [] 0 0) (by decide) 3).1

/-- C9: `step` is deterministic: machines constructed from inputs denoting the
same transition table, tape contents, state and position produce identical
halting flags and identical resulting state, position, tape and step count. -/
theorem claim_c9_determinism (i1 i2 : List TuringInstruction) (w1 w2 : List Bool)
    (s1 s2 p1 p2 : Int)
    (htab : buildInstructionsMap i1 = buildInstructionsMap i2)
    (hw : w1 = w2) (hs : s1 = s2) (hp : p1 = p2) :
    (TuringMachine.init i1 w1 s1 p1).step.1 = (TuringMachine.init i2 w2 s2 p2).step.1 ∧
    (TuringMachine.init i1 w1 s1 p1).step.2.state =
      (TuringMachine.init i2 w2 s2 p2).step.2.state ∧
    (TuringMachine.init i1 w1 s1 p1).step.2.position =
      (TuringMachine.init i2 w2 s2 p2).step.2.position ∧
    (TuringMachine.init i1 w1 s1 p1).step.2.strip =
      (TuringMachine.init i2 w2 s2 p2).step.2.strip ∧
    (TuringMachine.init i1 w1 s1 p1).step.2.step_count =
      (TuringMachine.init i2 w2 s2 p2).step.2.step_count := by
  subst hw hs hp
  have hmach : TuringMachine.init i1 w1 s1 p1 = TuringMachine.init i2 w1 s1 p1 := by
    unfold TuringMachine.init
    rw [htab]
  rw [hmach]
  exact ⟨rfl, rfl, rfl, rfl, rfl⟩

/-- C9 witness: two identically-constructed machines step identically. -/
theorem claim_c9_witness :
    (TuringMachine.init [] [true] 1 0).step.1 = (TuringMachine.init [] [true] 1 0).step.1 :=
  (claim_c9_determinism [] [] [true] [true] 1 1 0 0 rfl rfl rfl rfl).1

/-- C10: every non-halting step materializes the cell at the pre-step head
position: after `step` returns false, the pre-step position maps to a valid
index of the materialized window, even when the written value equals the value
just read on an out-of-window blank cell. -/
theorem claim_c10_materializes (m : TuringMachine) (h : m.step.1 = false) :
    0 ≤ m.position + m.step.2.strip.offset ∧
    m.position + m.step.2.strip.offset < ((m.step.2.strip.data.length : Int)) := by
  by_cases h0 : m.state = 0
  · have ht := (TuringMachine.step_flag_iff m).mpr (Or.inl h0)
    rw [h] at ht
    exact absurd ht (by decide)
  · cases hl : m.instructions_map (m.state, m.val) with
    | none =>
      have ht := (TuringMachine.step_flag_iff m).mpr (Or.inr hl)
      rw [h] at ht
      exact absurd ht (by decide)
    | some instr =>
      rw [TuringMachine.step_apply m instr h0 hl]
      dsimp only
      exact TuringStrip.set_materializes m.strip m.position instr.end_value

/-- C10 witness: the left-mover's first step writes blank onto the
out-of-window blank cell 0 of the empty tape and still materializes it. -/
theorem claim_c10_witness :
    0 ≤ leftMachine.position + leftMachine.step.2.strip.offset ∧
    leftMachine.position + leftMachine.step.2.strip.offset <
      ((leftMachine.step.2.strip.data.length : Int)) :=
  claim_c10_materializes leftMachine (by decide)
